import Mathlib

/-!
Verification of the finite-field and elliptic-curve-point arithmetic of this
repository (Programming Bitcoin, chapters 1 and 2), against its design notes.

The repository holds three independent field-element implementations
(chapter_01/implementation_01 .. 03) and three point implementations
(chapter_02/implementation_01 .. 03).  Each is embedded below in its own
namespace, translated from the Rust source:

* Rust `panic!`, `unwrap()` on `Err`, and `todo!()` are modelled by `Option`
  (`none` = the call aborts) or `Except` where the source returns `Result`.
* Rust `i32`/`u32`/`i64`/`i128`/`u128` values are modelled by `Int`/`Nat`;
  the spec declares arbitrary-precision vs fixed-width representation an
  implementation choice, not part of the contract (spec section 1), and every
  concrete input below stays far from the fixed-width bounds.
* `rem_euclid` on Rust machine integers is `Int.emod` (both return the
  least non-negative residue for a positive modulus).
* `num_bigint::BigInt::modpow` reduces like `mod_floor`, hence `Int.fmod`.
* The `%` and `/` operators on `BigInt` and on Rust machine integers
  truncate toward zero, hence `Int.tmod` / `Int.tdiv`.
-/

namespace Ch01Impl01

/-- Field element of chapter_01/implementation_01 (main.rs): `num` and
`prime` are `u32` values, modelled as `Nat`. -/
structure FieldElement where
  num : Nat
  prime : Nat
deriving DecidableEq, Repr

/-- Constructor: aborts (`panic!`) when `num >= prime`. -/
def new (num prime : Nat) : Option FieldElement :=
  if num ≥ prime then none else some ⟨num, prime⟩

/-- `pow`: reduces the `i32` exponent with `rem_euclid(prime - 1)`, then
computes `num ^ exponent % prime` and rebuilds through the constructor. -/
def pow (a : FieldElement) (power : Int) : Option FieldElement :=
  let exponent : Int := Int.emod power ((a.prime : Int) - 1)
  let result : Nat := (a.num ^ exponent.toNat) % a.prime
  new result a.prime

/-- Addition: aborts on mismatched primes, else `(num + num) % prime`. -/
def add (a b : FieldElement) : Option FieldElement :=
  if a.prime ≠ b.prime then none
  else some ⟨(a.num + b.num) % a.prime, a.prime⟩

/-- Multiplication: aborts on mismatched primes, else `(num * num) % prime`. -/
def mul (a b : FieldElement) : Option FieldElement :=
  if a.prime ≠ b.prime then none
  else some ⟨(a.num * b.num) % a.prime, a.prime⟩

/-- Division: aborts on mismatched primes, aborts on a zero divisor, else
multiplies by `other.pow(prime - 2)` (Fermat inverse). -/
def div (a b : FieldElement) : Option FieldElement :=
  if a.prime ≠ b.prime then none
  else if b.num = 0 then none
  else (pow b ((a.prime : Int) - 2)).bind (fun other_inverse => mul a other_inverse)

end Ch01Impl01

namespace Ch01Impl02

/-- Field element of chapter_01/implementation_02 (field_element.rs): `num`
and `prime` are `BigInt` values, modelled as `Int`. -/
structure FieldElement where
  num : Int
  prime : Int
deriving DecidableEq, Repr

/-- The custom `RemEuclid` trait for `BigInt` is implemented as
`self.modpow(&1, &rhs)`; `BigInt::modpow` reduces like `mod_floor`,
which is `Int.fmod`. -/
def rem_euclid (x rhs : Int) : Int := (x ^ (1 : Nat)).fmod rhs

/-- Constructor: aborts (`panic!`) unless `0 <= num < prime`. -/
def new (num prime : Int) : Option FieldElement :=
  if num ≥ prime ∨ num < 0 then none else some ⟨num, prime⟩

/-- `pow`: reduces the exponent with the custom `rem_euclid(prime - 1)`,
then `modpow(positive_exponent, prime)`.  For `prime ≥ 2` the reduced
exponent is non-negative, matching `modpow`'s precondition; `modpow`
itself reduces like `mod_floor` (`Int.fmod`). -/
def pow (a : FieldElement) (exponent : Int) : FieldElement :=
  let positive_exponent := rem_euclid exponent (a.prime - 1)
  let num := (a.num ^ positive_exponent.toNat).fmod a.prime
  ⟨num, a.prime⟩

/-- Addition: aborts on mismatched primes, else
`(num + num).rem_euclid(prime)`. -/
def add (a b : FieldElement) : Option FieldElement :=
  if a.prime ≠ b.prime then none
  else some ⟨rem_euclid (a.num + b.num) a.prime, a.prime⟩

/-- Subtraction: aborts on mismatched primes, else
`(num - num).rem_euclid(prime)`. -/
def sub (a b : FieldElement) : Option FieldElement :=
  if a.prime ≠ b.prime then none
  else some ⟨rem_euclid (a.num - b.num) a.prime, a.prime⟩

/-- Multiplication: aborts on mismatched primes, else
`(num * num).rem_euclid(prime)`. -/
def mul (a b : FieldElement) : Option FieldElement :=
  if a.prime ≠ b.prime then none
  else some ⟨rem_euclid (a.num * b.num) a.prime, a.prime⟩

/-- Division: aborts on mismatched primes; performs NO zero-divisor check.
Computes `rhs.num.modpow(prime - 2, prime)` and then
`(num * rhs_factor) % prime` with the truncating `%` of `BigInt`. -/
def div (a b : FieldElement) : Option FieldElement :=
  if a.prime ≠ b.prime then none
  else
    let exponent := a.prime - 2
    let rhs_factor := (b.num ^ exponent.toNat).fmod a.prime
    some ⟨(a.num * rhs_factor).tmod a.prime, a.prime⟩

end Ch01Impl02

namespace Ch01Impl03

/-- Trial-division primality test of chapter_01/implementation_03
(finite_field_element.rs): the `while aux * aux <= n` loop, starting at
`aux = 2`.  Note the loop body never runs when `n < 4`. -/
def is_prime_loop (n aux : Nat) : Bool :=
  if h : aux * aux ≤ n then
    if n % aux = 0 then false else is_prime_loop n (aux + 1)
  else true
termination_by n + 2 - aux
decreasing_by
  have haux : aux ≤ n := by
    rcases Nat.eq_zero_or_pos aux with h0 | h1
    · omega
    · calc aux = aux * 1 := (Nat.mul_one aux).symm
        _ ≤ aux * aux := Nat.mul_le_mul_left aux h1
        _ ≤ n := h
  omega

/-- The `is_prime` entry point: `1` is special-cased to `false`, everything
else goes through the trial-division loop. -/
def is_prime (number_to_check : Nat) : Bool :=
  if number_to_check = 1 then false else is_prime_loop number_to_check 2

/-- Error value returned when the compile-time order is not accepted. -/
structure NotPrimeError where
deriving DecidableEq, Repr

/-- Field element of implementation_03: an `i128` value (modelled as `Int`)
tagged with the compile-time `u128` modulus `P` (modelled as `Nat`). -/
structure FiniteFieldElement (P : Nat) where
  value : Int
deriving DecidableEq, Repr

/-- Constructor: checks ONLY that `P` is accepted by `is_prime`; the value
itself is stored unchecked and unreduced. -/
def new (P : Nat) (value : Int) : Except NotPrimeError (FiniteFieldElement P) :=
  if !(is_prime P) then Except.error ⟨⟩ else Except.ok ⟨value⟩

/-- Addition: `(value + value).rem_euclid(P)`. -/
def add {P : Nat} (a b : FiniteFieldElement P) : FiniteFieldElement P :=
  ⟨(a.value + b.value).emod (P : Int)⟩

/-- Subtraction: `(value - value).rem_euclid(P)`. -/
def sub {P : Nat} (a b : FiniteFieldElement P) : FiniteFieldElement P :=
  ⟨(a.value - b.value).emod (P : Int)⟩

/-- Multiplication: `(value * value).rem_euclid(P)`. -/
def mul {P : Nat} (a b : FiniteFieldElement P) : FiniteFieldElement P :=
  ⟨(a.value * b.value).emod (P : Int)⟩

/-- The `for _ in 1..exp` accumulation loop of `pow`: multiplies the
accumulator by `base` the given number of times. -/
def pow_loop (base : Int) : Nat → Int → Int
  | 0, value => value
  | k + 1, value => pow_loop base k (value * base)

/-- `pow`: reduces the exponent with `rem_euclid(P - 1)`, then runs
`value *= self.value` for `_ in 1..exp` — that is `exp - 1` times on an
accumulator initialised to `self.value` — and finally reduces
`rem_euclid(P)`.  (When the reduced exponent is `0` the loop body never
runs, so the stored value itself is returned.) -/
def pow {P : Nat} (a : FiniteFieldElement P) (n : Int) : FiniteFieldElement P :=
  let exp := Int.emod n ((P : Int) - 1)
  ⟨(pow_loop a.value (exp.toNat - 1) a.value).emod (P : Int)⟩

/-- Division: `self * other.pow(P - 2)`; no zero-divisor check. -/
def div {P : Nat} (a b : FiniteFieldElement P) : FiniteFieldElement P :=
  mul a (pow b ((P : Int) - 2))

end Ch01Impl03

namespace Ch02Impl01

/-- Point of chapter_02/implementation_01 (point.rs, `Point<i32>`): optional
`i32` coordinates plus curve parameters `a`, `b`, modelled as `Int`. -/
structure Point where
  x : Option Int
  y : Option Int
  a : Int
  b : Int
deriving DecidableEq, Repr

/-- Constructor: when both coordinates are present, aborts (`panic!`)
unless `y^2 = x^3 + a*x + b`; otherwise produces the infinity point. -/
def new (x y : Option Int) (a b : Int) : Option Point :=
  match x, y with
  | some x_some, some y_some =>
    if y_some ^ 2 ≠ x_some ^ 3 + a * x_some + b then none
    else some ⟨x, y, a, b⟩
  | _, _ => some ⟨none, none, a, b⟩

/-- Point addition of implementation_01.  Aborts on mismatched curve
parameters.  Whenever either coordinate of either operand is `None` it
returns the INFINITY point (not the other operand).  Chord and doubling
use the truncating `i32` division (`Int.tdiv`) and rebuild the result
through the validating constructor (`Point::new`), whose failure aborts. -/
def add (p q : Point) : Option Point :=
  if p.a ≠ q.a ∨ p.b ≠ q.b then none
  else if p.x = none then some ⟨none, none, p.a, p.b⟩
  else if q.x = none then some ⟨none, none, p.a, p.b⟩
  else if p.y = none then some ⟨none, none, p.a, p.b⟩
  else if q.y = none then some ⟨none, none, p.a, p.b⟩
  else
    -- the four unwraps, guarded by the checks above
    let x1 := p.x.getD 0
    let x2 := q.x.getD 0
    let y1 := p.y.getD 0
    let y2 := q.y.getD 0
    if x1 ≠ x2 then
      let s := (y2 - y1).tdiv (x2 - x1)
      let x3 := s ^ 2 - x1 - x2
      let y3 := s * (x1 - x3) - y1
      new (some x3) (some y3) p.a p.b
    else if p = q ∧ y1 = 0 * x1 then
      new none none p.a p.b
    else if p = q then
      let s := (3 * x1 ^ 2 + p.a).tdiv (2 * y1)
      let x3 := s ^ 2 - 2 * x1
      let y3 := s * (x1 - x3) - y1
      new (some x3) (some y3) p.a p.b
    else some ⟨none, none, p.a, p.b⟩

end Ch02Impl01

namespace Ch02Impl02

/-- Point of chapter_02/implementation_02 (point.rs): optional `BigInt`
coordinates plus curve parameters, modelled as `Int`. -/
structure Point where
  x : Option Int
  y : Option Int
  a : Int
  b : Int
deriving DecidableEq, Repr

/-- Constructor: validates `y^2 = x^3 + a*x + b` when both coordinates are
present; aborts when exactly one is present; accepts `(None, None)`. -/
def new (x y : Option Int) (a b : Int) : Option Point :=
  match x, y with
  | some x_num, some y_num =>
    if y_num ^ 2 ≠ x_num ^ 3 + a * x_num + b then none
    else some ⟨x, y, a, b⟩
  | some _, none => none
  | none, some _ => none
  | none, none => some ⟨none, none, a, b⟩

/-- Point addition of implementation_02.  Aborts on mismatched curve
parameters; then matches, in order: infinity on the left, infinity on the
right, additive inverses, chord (distinct x, slope by truncating `BigInt`
division, result NOT validated), and a residual `self` fallback commented
`Other cases, TODO` in the source. -/
def add (p q : Point) : Option Point :=
  if p.a ≠ q.a ∨ p.b ≠ q.b then none
  else some (match p.x, p.y, q.x, q.y with
    | none, _, some _, _ => q
    | some _, _, none, _ => p
    | some self_x, some self_y, some rhs_x, some rhs_y =>
      if self_x = rhs_x ∧ self_y = -rhs_y then ⟨none, none, p.a, p.b⟩
      else if self_x ≠ rhs_x then
        let slope := (rhs_y - self_y).tdiv (rhs_x - self_x)
        let result_x := slope * slope - self_x - rhs_x
        let result_y := slope * (self_x - result_x) - self_y
        ⟨some result_x, some result_y, p.a, p.b⟩
      else p
    | _, _, _, _ => p)

/-- True exactly when the operands fall through to the residual
`_ => self` arm of implementation_02's match (same guard chain as `add`,
with the curve-mismatch abort already ruled out). -/
def add_hits_fallback (p q : Point) : Bool :=
  match p.x, p.y, q.x, q.y with
  | none, _, some _, _ => false
  | some _, _, none, _ => false
  | some self_x, some self_y, some rhs_x, some rhs_y =>
    if self_x = rhs_x ∧ self_y = -rhs_y then false
    else if self_x ≠ rhs_x then false
    else true
  | _, _, _, _ => true

end Ch02Impl02

namespace Ch02Impl03

/-- Point of chapter_02/implementation_03 (point.rs): the
`enum Point<const A: i64, const B: i64>` with the curve parameters carried
separately; coordinates are `i64`, modelled as `Int`. -/
inductive Point where
  | point (x y : Int)
  | infinity
deriving DecidableEq, Repr

/-- Constructor `new_point`: `ensure!(y^2 == x^3 + A*x + B)`, so `none`
models the `Err` outcome. -/
def new_point (A B x y : Int) : Option Point :=
  if y ^ 2 = x ^ 3 + A * x + B then some (Point.point x y) else none

/-- Constructor `new_infinity`. -/
def new_infinity : Point := Point.infinity

/-- Point addition of implementation_03, arm for arm: the two-infinity
case, the two identity arms, inverses (equal x, different y), the
vertical-tangent case (equal x, some y zero), doubling (equal point,
truncating slope, result rebuilt with `new_point(..).unwrap()`), chord
(distinct x, same rebuilding), and the residual `todo!()` arm.  `none`
models both the `unwrap` abort and the `todo!()` abort. -/
def add (A B : Int) (p q : Point) : Option Point :=
  match p, q with
  | Point.infinity, Point.infinity => some new_infinity
  | Point.infinity, Point.point _ _ => some q
  | Point.point _ _, Point.infinity => some p
  | Point.point x1 y1, Point.point x2 y2 =>
    if x1 = x2 ∧ y1 ≠ y2 then some new_infinity
    else if x1 = x2 ∧ (y1 = 0 ∨ y2 = 0) then some new_infinity
    else if x1 = x2 ∧ y1 = y2 then
      let slope := (3 * x1 ^ 2 + A).tdiv (2 * y1)
      let x3 := slope ^ 2 - 2 * x1
      let y3 := slope * (x1 - x3) - y1
      new_point A B x3 y3
    else if x1 ≠ x2 then
      let slope := (y2 - y1).tdiv (x2 - x1)
      let x3 := slope ^ 2 - (x1 + x2)
      let y3 := slope * (x1 - x3) - y1
      new_point A B x3 y3
    else none

/-- True exactly when the operands fall through to the `todo!()` arm of
implementation_03's match (same guard chain as `add`). -/
def add_hits_todo (p q : Point) : Bool :=
  match p, q with
  | Point.point x1 y1, Point.point x2 y2 =>
    if x1 = x2 ∧ y1 ≠ y2 then false
    else if x1 = x2 ∧ (y1 = 0 ∨ y2 = 0) then false
    else if x1 = x2 ∧ y1 = y2 then false
    else if x1 ≠ x2 then false
    else true
  | _, _ => false

end Ch02Impl03

/-- C1: the identity law holds in implementation_03 — adding infinity on
either side returns the other operand, for every point and every curve —
but implementation_01's add returns the INFINITY point whenever either
operand is infinity, so on curve `a = 5, b = 7` it sends
`infinity + (2, 5)` (and `(2, 5) + infinity`) to infinity instead of to
the valid finite point `(2, 5)`. -/
theorem infinity_identity_check :
    (∀ (A B : Int) (q : Ch02Impl03.Point),
      Ch02Impl03.add A B Ch02Impl03.Point.infinity q = some q ∧
      Ch02Impl03.add A B q Ch02Impl03.Point.infinity = some q) ∧
    Ch02Impl01.new (some 2) (some 5) 5 7 = some ⟨some 2, some 5, 5, 7⟩ ∧
    Ch02Impl01.add ⟨none, none, 5, 7⟩ ⟨some 2, some 5, 5, 7⟩ = some ⟨none, none, 5, 7⟩ ∧
    Ch02Impl01.add ⟨some 2, some 5, 5, 7⟩ ⟨none, none, 5, 7⟩ = some ⟨none, none, 5, 7⟩ ∧
    (⟨none, none, 5, 7⟩ : Ch02Impl01.Point) ≠ ⟨some 2, some 5, 5, 7⟩ := by
  refine ⟨?_, by decide, by decide, by decide, by decide⟩
  intro A B q
  cases q <;> exact ⟨rfl, rfl⟩

/-- C2: doubling `(-1, -1)` on the integer curve `a = 5, b = 7` yields
`(18, 77)` in implementation_03 (slope `8 / -2 = -4`), but
implementation_02 has no doubling arm at all: the same input falls through
to the residual `self` arm (commented Other cases, TODO) and the call
silently returns the operand `(-1, -1)` instead of `(18, 77)`. -/
theorem doubling_formula_check :
    Ch02Impl03.add 5 7 (Ch02Impl03.Point.point (-1) (-1)) (Ch02Impl03.Point.point (-1) (-1)) =
      some (Ch02Impl03.Point.point 18 77) ∧
    Ch02Impl02.new (some (-1)) (some (-1)) 5 7 = some ⟨some (-1), some (-1), 5, 7⟩ ∧
    Ch02Impl02.add ⟨some (-1), some (-1), 5, 7⟩ ⟨some (-1), some (-1), 5, 7⟩ =
      some ⟨some (-1), some (-1), 5, 7⟩ ∧
    (⟨some (-1), some (-1), 5, 7⟩ : Ch02Impl02.Point) ≠ ⟨some 18, some 77, 5, 7⟩ := by
  refine ⟨by decide, by decide, by decide, by decide⟩

/-- C4: adding the two valid points `(-1, 1)` and `(2, 5)` of the curve
`a = 5, b = 7` makes implementation_03 abort: the truncating slope
`4 / 3 = 1` produces `(0, -2)`, which fails the curve check inside
`new_point`, so the internal `unwrap()` aborts (modelled as `none`).
Implementation_01 aborts on the same input for the same reason, inside
`Point::new`.  So add can fail for operands sharing `(a, b)`. -/
theorem add_same_curve_abort_check :
    Ch02Impl03.new_point 5 7 (-1) 1 = some (Ch02Impl03.Point.point (-1) 1) ∧
    Ch02Impl03.new_point 5 7 2 5 = some (Ch02Impl03.Point.point 2 5) ∧
    Ch02Impl03.add 5 7 (Ch02Impl03.Point.point (-1) 1) (Ch02Impl03.Point.point 2 5) = none ∧
    Ch02Impl01.new (some (-1)) (some 1) 5 7 = some ⟨some (-1), some 1, 5, 7⟩ ∧
    Ch02Impl01.add ⟨some (-1), some 1, 5, 7⟩ ⟨some 2, some 5, 5, 7⟩ = none := by
  refine ⟨by decide, by decide, by decide, by decide, by decide⟩

/-- C6: in implementation_03, an exponent that reduces to `0` modulo
`P - 1` does not give `value ^ 0 = 1`: the `for _ in 1..exp` loop body
never runs, so `pow` returns the stored value itself.  At `P = 11`,
`FiniteFieldElement(3).pow(0)` and `.pow(10)` both return `3`, while
`3 ^ (k mod 10) mod 11 = 1` for `k = 0` and `k = 10`. -/
theorem pow_zero_exponent_check :
    Ch01Impl03.pow (P := 11) ⟨3⟩ 0 = ⟨3⟩ ∧
    Ch01Impl03.pow (P := 11) ⟨3⟩ 10 = ⟨3⟩ ∧
    ((3 : Int) ^ (Int.emod 0 (11 - 1)).toNat).emod 11 = 1 ∧
    ((3 : Int) ^ (Int.emod 10 (11 - 1)).toNat).emod 11 = 1 ∧
    (3 : Int) ≠ 1 := by
  refine ⟨by decide, by decide, by decide, by decide, by decide⟩

/-- C7: implementation_03's `todo!()` arm is unreachable — for every pair
of points one of the earlier arms matches — but implementation_02's
residual `_ => self` arm IS reached: doubling the valid point `(18, 77)`
of the curve `a = 5, b = 7` falls through every earlier arm and silently
returns the operand unchanged, a case far outside the identity law. -/
theorem fallback_branch_check :
    (∀ p q : Ch02Impl03.Point, Ch02Impl03.add_hits_todo p q = false) ∧
    Ch02Impl02.new (some 18) (some 77) 5 7 = some ⟨some 18, some 77, 5, 7⟩ ∧
    Ch02Impl02.add_hits_fallback ⟨some 18, some 77, 5, 7⟩ ⟨some 18, some 77, 5, 7⟩ = true ∧
    Ch02Impl02.add ⟨some 18, some 77, 5, 7⟩ ⟨some 18, some 77, 5, 7⟩ =
      some ⟨some 18, some 77, 5, 7⟩ := by
  refine ⟨?_, by decide, by decide, by decide⟩
  intro p q
  cases p with
  | infinity => cases q <;> rfl
  | point x1 y1 =>
    cases q with
    | infinity => rfl
    | point x2 y2 =>
      by_cases hx : x1 = x2
      · by_cases hy : y1 = y2
        · simp [Ch02Impl03.add_hits_todo, hx, hy]
        · simp [Ch02Impl03.add_hits_todo, hx, hy]
      · simp [Ch02Impl03.add_hits_todo, hx]

/-- C8: point addition in implementation_02 is NOT commutative.  For the
valid points `P = (-1, 1)` and `Q = (2, 5)` of the curve `a = 5, b = 7`,
the truncating BigInt slope division gives the same slope `1` both ways,
but the third coordinate formula `y3 = s*(x1 - x3) - y1` then yields
`P + Q = (0, -2)` and `Q + P = (0, -3)`. -/
theorem add_commutativity_check :
    Ch02Impl02.new (some (-1)) (some 1) 5 7 = some ⟨some (-1), some 1, 5, 7⟩ ∧
    Ch02Impl02.new (some 2) (some 5) 5 7 = some ⟨some 2, some 5, 5, 7⟩ ∧
    Ch02Impl02.add ⟨some (-1), some 1, 5, 7⟩ ⟨some 2, some 5, 5, 7⟩ =
      some ⟨some 0, some (-2), 5, 7⟩ ∧
    Ch02Impl02.add ⟨some 2, some 5, 5, 7⟩ ⟨some (-1), some 1, 5, 7⟩ =
      some ⟨some 0, some (-3), 5, 7⟩ ∧
    Ch02Impl02.add ⟨some (-1), some 1, 5, 7⟩ ⟨some 2, some 5, 5, 7⟩ ≠
      Ch02Impl02.add ⟨some 2, some 5, 5, 7⟩ ⟨some (-1), some 1, 5, 7⟩ := by
  refine ⟨by decide, by decide, by decide, by decide, by decide⟩

/-- Invariant of the trial-division loop: starting at divisor `aux`, the
loop answers `true` exactly when no divisor `d ≥ aux` with `d * d ≤ n`
divides `n`.  Induction on the fuel bound `k`. -/
theorem is_prime_loop_iff (k : Nat) : ∀ (n aux : Nat), n + 2 - aux ≤ k →
    (Ch01Impl03.is_prime_loop n aux = true ↔ ∀ d, aux ≤ d → d * d ≤ n → n % d ≠ 0) := by
  induction k with
  | zero =>
    intro n aux hk
    have hgt : ¬ aux * aux ≤ n := by
      intro hle
      have h1 : 1 * aux ≤ aux * aux := Nat.mul_le_mul (by omega) (le_refl aux)
      omega
    rw [Ch01Impl03.is_prime_loop, dif_neg hgt]
    constructor
    · intro _ d hd hdd
      exfalso
      have h1 : 1 * d ≤ d * d := Nat.mul_le_mul (by omega) (le_refl d)
      omega
    · intro _; rfl
  | succ k ih =>
    intro n aux hk
    rw [Ch01Impl03.is_prime_loop]
    by_cases hle : aux * aux ≤ n
    · rw [dif_pos hle]
      by_cases hmod : n % aux = 0
      · rw [if_pos hmod]
        constructor
        · intro hfalse; cases hfalse
        · intro hall
          exact absurd hmod (hall aux le_rfl hle)
      · rw [if_neg hmod]
        rw [ih n (aux + 1) (by omega)]
        constructor
        · intro hall d hd hdd
          rcases Nat.eq_or_lt_of_le hd with heq | hlt
          · subst heq; exact hmod
          · exact hall d hlt hdd
        · intro hall d hd hdd
          exact hall d (Nat.le_of_succ_le hd) hdd
    · rw [dif_neg hle]
      constructor
      · intro _ d hd hdd
        exfalso
        have hm : aux * aux ≤ d * d := Nat.mul_le_mul hd hd
        omega
      · intro _; rfl

/-- Characterisation of implementation_03's `is_prime`: it answers `true`
exactly on the primes AND on `0` — `1` is special-cased to `false`, and
for `0` the loop guard `2 * 2 <= 0` fails immediately, so `0` is
accepted as if it were prime. -/
theorem is_prime_iff (n : Nat) : Ch01Impl03.is_prime n = true ↔ (n = 0 ∨ Nat.Prime n) := by
  unfold Ch01Impl03.is_prime
  by_cases h1 : n = 1
  · subst h1
    simp [Nat.not_prime_one]
  · rw [if_neg h1, is_prime_loop_iff (n + 2) n 2 (by omega)]
    by_cases h0 : n = 0
    · subst h0
      constructor
      · intro _; exact Or.inl rfl
      · intro _ d hd hdd
        exfalso
        have : 2 * 2 ≤ d * d := Nat.mul_le_mul hd hd
        omega
    · have h2 : 2 ≤ n := by omega
      constructor
      · intro hall
        refine Or.inr ?_
        rw [Nat.prime_def_le_sqrt]
        refine ⟨h2, ?_⟩
        intro m hm hms hdvd
        have hmm : m * m ≤ n := Nat.le_sqrt.mp hms
        exact hall m hm hmm (Nat.dvd_iff_mod_eq_zero.mp hdvd)
      · intro hor d hd hdd hmod
        rcases hor with h0' | hp
        · exact h0 h0'
        · have hdvd : d ∣ n := Nat.dvd_iff_mod_eq_zero.mpr hmod
          rw [Nat.prime_def_le_sqrt] at hp
          exact hp.2 d hd (Nat.le_sqrt.mpr hdd) hdvd

/-- C10: implementation_03's constructor does NOT reject a zero modulus:
`is_prime(0)` returns `true` (only `1` is special-cased and the trial
loop never runs for `0`), so `FiniteFieldElement::<0>::new(5)` returns
`Ok` although `0` is not prime.  In full: `new` accepts exactly the
moduli in `{0} ∪ primes`. -/
theorem is_prime_zero_check :
    Ch01Impl03.is_prime 0 = true ∧
    Ch01Impl03.new 0 5 = Except.ok ⟨5⟩ ∧
    ¬ Nat.Prime 0 ∧
    (∀ n, Ch01Impl03.is_prime n = true ↔ (n = 0 ∨ Nat.Prime n)) := by
  have h0 : Ch01Impl03.is_prime 0 = true := (is_prime_iff 0).mpr (Or.inl rfl)
  refine ⟨h0, ?_, Nat.not_prime_zero, is_prime_iff⟩
  simp [Ch01Impl03.new, h0]

/-- Range predicate used by the invariant statements below. -/
def inRange (x p : Int) : Prop := 0 ≤ x ∧ x < p

/-- The custom BigInt `rem_euclid` lands in `[0, p)` for positive `p`. -/
theorem rem_euclid_bounds (x p : Int) (hp : 0 < p) :
    inRange (Ch01Impl02.rem_euclid x p) p := by
  unfold Ch01Impl02.rem_euclid inRange
  rw [pow_one]
  exact ⟨Int.fmod_nonneg' _ hp, Int.fmod_lt_of_pos _ hp⟩

/-- Euclidean remainders land in `[0, p)` for positive `p`. -/
theorem emod_inRange (x p : Int) (hp : 0 < p) : inRange (x.emod p) p :=
  ⟨Int.emod_nonneg _ (ne_of_gt hp), Int.emod_lt_of_pos _ hp⟩

/-- C3 counterexample: implementation_02's division performs no
zero-divisor check.  With modulus `19`, dividing `2` by the zero element
does not fail — it silently returns the zero element
(`0 ^ 17 mod 19 = 0`), contradicting the claim that `div` fails exactly
when the divisor's value is `0`. -/
theorem div_zero_no_error_cex :
    Ch01Impl02.div ⟨2, 19⟩ ⟨0, 19⟩ = some ⟨0, 19⟩ ∧
    Ch01Impl02.div ⟨2, 19⟩ ⟨0, 19⟩ ≠ none := by
  refine ⟨by decide, by decide⟩

/-- C3 amended: implementation_01's `div` fails exactly when the divisor's
value is `0` (given shared modulus `p ≥ 3`) and otherwise returns
`a * b.pow(p - 2)`, the Fermat inverse; implementation_02's `div` never
fails for a shared modulus and always equals `a * b.pow(p - 2)` computed
with its own `pow` — including for a zero divisor, where that value is the
zero element rather than an error. -/
theorem div_fermat_amended (a1 b1 p1 : Nat) (a2 b2 p2 : Int)
    (hp1 : 3 ≤ p1) (hp2 : (3 : Int) ≤ p2) (ha2 : 0 ≤ a2) :
    (Ch01Impl01.div ⟨a1, p1⟩ ⟨b1, p1⟩ = none ↔ b1 = 0) ∧
    (b1 ≠ 0 → Ch01Impl01.div ⟨a1, p1⟩ ⟨b1, p1⟩ =
      some ⟨a1 * (b1 ^ (p1 - 2) % p1) % p1, p1⟩) ∧
    (Ch01Impl02.div ⟨a2, p2⟩ ⟨b2, p2⟩ =
      Ch01Impl02.mul ⟨a2, p2⟩ (Ch01Impl02.pow ⟨b2, p2⟩ (p2 - 2))) := by
  have hne1 : ¬ (p1 ≠ p1) := fun h => h rfl
  have hne2 : ¬ (p2 ≠ p2) := fun h => h rfl
  have hto : ((p1 : Int) - 2).toNat = p1 - 2 := by omega
  have hexp : Int.emod ((p1 : Int) - 2) ((p1 : Int) - 1) = (p1 : Int) - 2 :=
    Int.emod_eq_of_lt (by omega) (by omega)
  have hpow : Ch01Impl01.pow ⟨b1, p1⟩ ((p1 : Int) - 2) =
      some ⟨b1 ^ (p1 - 2) % p1, p1⟩ := by
    simp only [Ch01Impl01.pow, Ch01Impl01.new, hexp, hto]
    rw [if_neg (by have := Nat.mod_lt (b1 ^ (p1 - 2)) (show 0 < p1 by omega); omega)]
  refine ⟨?_, ?_, ?_⟩
  · unfold Ch01Impl01.div
    rw [if_neg hne1]
    by_cases hb : b1 = 0
    · simp [hb]
    · rw [if_neg hb, hpow]
      simp [Ch01Impl01.mul, hb]
  · intro hb
    unfold Ch01Impl01.div
    rw [if_neg hne1, if_neg hb, hpow]
    simp [Ch01Impl01.mul]
  · have h1 : Ch01Impl02.rem_euclid (p2 - 2) (p2 - 1) = p2 - 2 := by
      unfold Ch01Impl02.rem_euclid
      rw [pow_one, Int.fmod_eq_emod _ (by omega)]
      exact Int.emod_eq_of_lt (by omega) (by omega)
    simp only [Ch01Impl02.div, Ch01Impl02.mul, Ch01Impl02.pow, h1]
    rw [if_neg hne2, if_neg hne2]
    have hf : 0 ≤ (b2 ^ (p2 - 2).toNat).fmod p2 := Int.fmod_nonneg' _ (by omega)
    have hprod : 0 ≤ a2 * ((b2 ^ (p2 - 2).toNat).fmod p2) := mul_nonneg ha2 hf
    rw [Int.tmod_eq_emod hprod (by omega)]
    unfold Ch01Impl02.rem_euclid
    rw [pow_one, Int.fmod_eq_emod _ (by omega), Int.fmod_eq_emod _ (by omega)]

/-- Witness for the amended C3: `2 / 3 = 3` in the field of order `7`
(implementation_01, the assertion of its own `main`) and `2 / 7 = 3` in
the field of order `19` (implementation_02, the spec's scenario). -/
theorem div_fermat_amended_witness :
    Ch01Impl01.div ⟨2, 7⟩ ⟨3, 7⟩ = some ⟨3, 7⟩ ∧
    Ch01Impl02.div ⟨2, 19⟩ ⟨7, 19⟩ = some ⟨3, 19⟩ := by
  have h := div_fermat_amended 2 3 7 2 7 19 (by decide) (by decide) (by decide)
  constructor
  · rw [h.2.1 (by decide)]; decide
  · rw [h.2.2]; decide

/-- C5 counterexample: implementation_03's constructor performs no range
check.  With the prime compile-time modulus `P = 11`, `new(20)` returns
`Ok` with the stored value `20`, which is not in `[0, 11)`. -/
theorem new_range_unchecked_cex :
    Ch01Impl03.new 11 20 = Except.ok ⟨20⟩ ∧ ¬ inRange 20 11 := by
  constructor
  · simp [Ch01Impl03.new, (is_prime_iff 11).mpr (Or.inr (by norm_num))]
  · intro h
    exact absurd h.2 (by decide)

/-- C5 amended: in implementation_02 the constructor fails exactly when
the value is outside `[0, modulus)`, and add, sub, mul, pow and div of
in-range elements sharing a modulus `p ≥ 2` all produce values in
`[0, p)`; in implementation_03 the constructor checks only the
compile-time modulus (any value, however far out of range, is accepted
when `P` is), and it is the arithmetic operations — add, sub, mul, pow,
div — that land in `[0, P)`. -/
theorem field_range_invariant_amended
    (p v a b k : Int) (P : Nat) (c d j : Int)
    (hp : 2 ≤ p) (ha0 : 0 ≤ a) (hap : a < p) (hb0 : 0 ≤ b) (hbp : b < p)
    (hP : 2 ≤ P) :
    ((Ch01Impl02.new v p).isSome = true ↔ (0 ≤ v ∧ v < p)) ∧
    (Ch01Impl02.add ⟨a, p⟩ ⟨b, p⟩ = some ⟨Ch01Impl02.rem_euclid (a + b) p, p⟩ ∧
      inRange (Ch01Impl02.rem_euclid (a + b) p) p) ∧
    (Ch01Impl02.sub ⟨a, p⟩ ⟨b, p⟩ = some ⟨Ch01Impl02.rem_euclid (a - b) p, p⟩ ∧
      inRange (Ch01Impl02.rem_euclid (a - b) p) p) ∧
    (Ch01Impl02.mul ⟨a, p⟩ ⟨b, p⟩ = some ⟨Ch01Impl02.rem_euclid (a * b) p, p⟩ ∧
      inRange (Ch01Impl02.rem_euclid (a * b) p) p) ∧
    ((Ch01Impl02.pow ⟨a, p⟩ k).prime = p ∧ inRange (Ch01Impl02.pow ⟨a, p⟩ k).num p) ∧
    ((Ch01Impl02.div ⟨a, p⟩ ⟨b, p⟩).isSome = true ∧
      (∀ r, Ch01Impl02.div ⟨a, p⟩ ⟨b, p⟩ = some r → inRange r.num p ∧ r.prime = p)) ∧
    (Ch01Impl03.is_prime P = true → Ch01Impl03.new P c = Except.ok ⟨c⟩) ∧
    inRange (Ch01Impl03.add (P := P) ⟨c⟩ ⟨d⟩).value (P : Int) ∧
    inRange (Ch01Impl03.sub (P := P) ⟨c⟩ ⟨d⟩).value (P : Int) ∧
    inRange (Ch01Impl03.mul (P := P) ⟨c⟩ ⟨d⟩).value (P : Int) ∧
    inRange (Ch01Impl03.pow (P := P) ⟨c⟩ j).value (P : Int) ∧
    inRange (Ch01Impl03.div (P := P) ⟨c⟩ ⟨d⟩).value (P : Int) := by
  have hp0 : (0 : Int) < p := by omega
  have hPi : (2 : Int) ≤ (P : Int) := by exact_mod_cast hP
  have hP0 : (0 : Int) < (P : Int) := by omega
  refine ⟨?_, ⟨?_, rem_euclid_bounds _ _ hp0⟩, ⟨?_, rem_euclid_bounds _ _ hp0⟩,
    ⟨?_, rem_euclid_bounds _ _ hp0⟩, ⟨rfl, ?_⟩, ⟨?_, ?_⟩, ?_,
    emod_inRange _ _ hP0, emod_inRange _ _ hP0, emod_inRange _ _ hP0,
    emod_inRange _ _ hP0, emod_inRange _ _ hP0⟩
  · by_cases h : v ≥ p ∨ v < 0
    · rw [Ch01Impl02.new, if_pos h]
      simp only [Option.isSome_none, Bool.false_eq_true, false_iff]
      omega
    · rw [Ch01Impl02.new, if_neg h]
      simp only [Option.isSome_some, true_iff]
      omega
  · simp [Ch01Impl02.add]
  · simp [Ch01Impl02.sub]
  · simp [Ch01Impl02.mul]
  · show inRange ((a ^ (Ch01Impl02.rem_euclid k (p - 1)).toNat).fmod p) p
    exact ⟨Int.fmod_nonneg' _ hp0, Int.fmod_lt_of_pos _ hp0⟩
  · simp [Ch01Impl02.div]
  · intro r hr
    have hne : ¬ (p ≠ p) := fun h => h rfl
    simp only [Ch01Impl02.div] at hr
    rw [if_neg hne] at hr
    injection hr with hr2
    subst hr2
    have hf : 0 ≤ (b ^ (p - 2).toNat).fmod p := Int.fmod_nonneg' _ hp0
    have hprod : 0 ≤ a * ((b ^ (p - 2).toNat).fmod p) := mul_nonneg ha0 hf
    exact ⟨⟨Int.tmod_nonneg _ hprod, Int.tmod_lt_of_pos _ hp0⟩, rfl⟩
  · intro hpr
    simp [Ch01Impl03.new, hpr]

/-- Witness for the amended C5 at concrete inputs: modulus `13` with the
spec's scenario `7 + 12 = 6`, and implementation_03's `pow` at `P = 11`:
`3 ^ 3 = 27 ≡ 5 (mod 11)`, in range. -/
theorem field_range_invariant_amended_witness :
    Ch01Impl02.add ⟨7, 13⟩ ⟨12, 13⟩ = some ⟨6, 13⟩ ∧
    inRange (Ch01Impl03.pow (P := 11) ⟨3⟩ 3).value ((11 : Nat) : Int) := by
  have h := field_range_invariant_amended 13 6 7 12 (-3) 11 3 20 3
    (by decide) (by decide) (by decide) (by decide) (by decide) (by decide)
  constructor
  · rw [h.2.1.1]; decide
  · exact h.2.2.2.2.2.2.2.2.2.2.1

/-- C9: for every pair of field elements sharing a positive modulus `p`,
`sub` returns the Euclidean remainder of the ordinary integer difference
modulo `p`, a value in `[0, p)` — also when the difference is negative.
This holds in implementation_02 (whose custom `rem_euclid` is the
floor-mod of `BigInt::modpow`) and in implementation_03 (whose
`i128::rem_euclid` is the Euclidean remainder directly); no truncating
remainder is involved. -/
theorem sub_euclidean_remainder (a b p : Int) (P : Nat) (c d : Int)
    (hp : 0 < p) (hP : 0 < P) :
    Ch01Impl02.sub ⟨a, p⟩ ⟨b, p⟩ = some ⟨(a - b).emod p, p⟩ ∧
    0 ≤ (a - b).emod p ∧ (a - b).emod p < p ∧
    Ch01Impl03.sub (P := P) ⟨c⟩ ⟨d⟩ = ⟨(c - d).emod (P : Int)⟩ ∧
    0 ≤ (c - d).emod (P : Int) ∧ (c - d).emod (P : Int) < (P : Int) := by
  have hPpos : (0 : Int) < (P : Int) := by exact_mod_cast hP
  refine ⟨?_, ?_, ?_, rfl, ?_, ?_⟩
  · have hre : Ch01Impl02.rem_euclid (a - b) p = (a - b).emod p := by
      unfold Ch01Impl02.rem_euclid
      rw [pow_one, Int.fmod_eq_emod _ (le_of_lt hp)]
      rfl
    simp [Ch01Impl02.sub, hre]
  · exact Int.emod_nonneg _ (ne_of_gt hp)
  · exact Int.emod_lt_of_pos _ hp
  · exact Int.emod_nonneg _ (ne_of_gt hPpos)
  · exact Int.emod_lt_of_pos _ hPpos

/-- Witness for C9 at concrete inputs: `p = 13`, `a = 7 < b = 12` (negative
intermediate difference) gives `7 - 12 = -5 ≡ 8 (mod 13)`, and the
implementation_03 subtraction at `P = 11`, `1 - 20 = -19 ≡ 3 (mod 11)`
(the value its own test asserts). -/
theorem sub_euclidean_remainder_witness :
    Ch01Impl02.sub ⟨7, 13⟩ ⟨12, 13⟩ = some ⟨8, 13⟩ ∧
    Ch01Impl03.sub (P := 11) ⟨1⟩ ⟨20⟩ = ⟨3⟩ := by
  have h := sub_euclidean_remainder 7 12 13 11 1 20 (by decide) (by decide)
  refine ⟨?_, ?_⟩
  · rw [h.1]; decide
  · rw [h.2.2.2.1]; decide
